import Mathlib

/-!
Verification development for the candidate-search repository
(src/utils.py, src/search_engine.py, src/filter_logger.py).

Python floats are modelled as rationals, Python ints as `Int`/`Nat`.
The two regular-expression scans of src/utils.py are abstracted by their
match results: a source text is represented by the optional explicit
years capture and by the list of date-range captures it yields, in text
order. Everything downstream of the regex layer is translated directly
from the source.
-/

namespace MercorSearch

/-! Embedding of src/utils.py -/

/-- Embedding of normalize_score (src/utils.py lines 8-11): min-max
normalization, with the degenerate case max == min mapped to 0.5. -/
def normalize_score (score min_score max_score : ℚ) : ℚ :=
  if max_score = min_score then 1/2
  else (score - min_score) / (max_score - min_score)

/-- Validity test of src/utils.py line 49: a parsed date range (start, end)
is kept only if 1980 <= start < end <= current_year. -/
def validRange (current_year : Int) (r : Int × Int) : Bool :=
  decide (1980 ≤ r.1) && decide (r.1 < r.2) && decide (r.2 ≤ current_year)

/-- Lexicographic order on (start, end) pairs, the order used by the Python
list.sort() call on tuples in src/utils.py line 54. -/
def pairRel (a b : Int × Int) : Prop :=
  a.1 < b.1 ∨ (a.1 = b.1 ∧ a.2 ≤ b.2)

instance instDecPairRel (a b : Int × Int) : Decidable (pairRel a b) := by
  unfold pairRel; infer_instance

instance : IsTotal (Int × Int) pairRel :=
  ⟨fun a b => by unfold pairRel; omega⟩

instance : IsTrans (Int × Int) pairRel :=
  ⟨fun a b c => by unfold pairRel; omega⟩

/-- Embedding of date_ranges.sort() (src/utils.py line 54). -/
def sortPairs (l : List (Int × Int)) : List (Int × Int) :=
  List.insertionSort pairRel l

/-- Embedding of the merge loop of src/utils.py lines 59-64, carrying the
last merged interval separately: when the next range starts strictly after
the last merged end, the last interval is final and a new one starts;
otherwise the last merged end is extended with the maximum of the two ends. -/
def mergeLoop : Int × Int → List (Int × Int) → List (Int × Int)
  | cur, [] => [cur]
  | cur, r :: rs =>
      if cur.2 < r.1 then cur :: mergeLoop r rs
      else mergeLoop (cur.1, max cur.2 r.2) rs

/-- Merged maximal intervals of a sorted range list (src/utils.py lines 59-64). -/
def mergeRanges : List (Int × Int) → List (Int × Int)
  | [] => []
  | r :: rs => mergeLoop r rs

/-- Embedding of EnhancedTextProcessor._calculate_experience_from_dates
(src/utils.py lines 37-66) from the regex match list onward: filter the
parsed ranges by validity, sort, merge, and sum the merged lengths. -/
def calculate_experience_from_dates (ranges : List (Int × Int))
    (current_year : Int) : Int :=
  let date_ranges := sortPairs (ranges.filter (validRange current_year))
  if date_ranges.isEmpty then 0
  else ((mergeRanges date_ranges).map (fun r => r.2 - r.1)).sum

/-- Embedding of EnhancedTextProcessor.extract_years_experience
(src/utils.py lines 68-84). The explicit regex match of line 74 is
abstracted as the optional captured number (none when the phrase
"N years of experience" is absent, in which case explicit_years stays 0). -/
def extract_years_experience (explicitMatch : Option Nat)
    (ranges : List (Int × Int)) (current_year : Int) : Int :=
  let explicit_years : Int := (explicitMatch.getD 0 : Nat)
  let date_range_years := calculate_experience_from_dates ranges current_year
  min (max explicit_years date_range_years) 50

/-! Supporting lemmas about the date-range sort -/

theorem sortPairs_sorted (l : List (Int × Int)) :
    List.Sorted pairRel (sortPairs l) :=
  List.sorted_insertionSort pairRel l

theorem sortPairs_perm (l : List (Int × Int)) :
    (sortPairs l).Perm l :=
  List.perm_insertionSort pairRel l

theorem sortPairs_sorted_by_start (l : List (Int × Int)) :
    List.Sorted (fun a b : Int × Int => a.1 ≤ b.1) (sortPairs l) :=
  (sortPairs_sorted l).imp (fun h => by unfold pairRel at h; omega)

/-- Claim C3: the date-range years computation keeps only ranges with
1980 <= start < end <= current_year (dropping any invalid range changes
nothing), sorts them by start year (a sorted permutation of the valid
ranges), merges overlapping ranges, and returns the sum of (end - start)
over the merged intervals; ranges 2010-2015 and 2014-2018 merge to the
single interval 2010-2018 giving 8 years, and the disjoint ranges
2005-2008 and 2015-2017 give 3 + 2 = 5 years. -/
theorem claim_C3_date_range_merge :
    (∀ (r : Int × Int) (rs : List (Int × Int)) (y : Int),
      validRange y r = false →
        calculate_experience_from_dates (r :: rs) y =
          calculate_experience_from_dates rs y) ∧
    (∀ (ranges : List (Int × Int)) (y : Int),
      List.Sorted (fun a b : Int × Int => a.1 ≤ b.1)
          (sortPairs (ranges.filter (validRange y))) ∧
        (sortPairs (ranges.filter (validRange y))).Perm
          (ranges.filter (validRange y))) ∧
    (∀ (ranges : List (Int × Int)) (y : Int),
      calculate_experience_from_dates ranges y =
        ((mergeRanges (sortPairs (ranges.filter (validRange y)))).map
          (fun r => r.2 - r.1)).sum) ∧
    mergeRanges (sortPairs [(2010, 2015), (2014, 2018)]) = [(2010, 2018)] ∧
    calculate_experience_from_dates [(2010, 2015), (2014, 2018)] 2026 = 8 ∧
    calculate_experience_from_dates [(2005, 2008), (2015, 2017)] 2026 = 5 := by
  refine ⟨?_, ?_, ?_, by decide, by decide, by decide⟩
  · intro r rs y h
    unfold calculate_experience_from_dates
    simp [List.filter_cons, h]
  · intro ranges y
    exact ⟨sortPairs_sorted_by_start _, sortPairs_perm _⟩
  · intro ranges y
    unfold calculate_experience_from_dates
    rcases h : sortPairs (ranges.filter (validRange y)) with _ | ⟨r, rs⟩ <;>
      simp [mergeRanges]

/-- Witness for claim C3: the invalid-range hypothesis of the first
conjunct discharged at the concrete range (1975, 2000). -/
theorem claim_C3_witness :
    calculate_experience_from_dates [(1975, 2000), (2010, 2012)] 2026 =
      calculate_experience_from_dates [(2010, 2012)] 2026 :=
  claim_C3_date_range_merge.1 (1975, 2000) [(2010, 2012)] 2026 (by decide)

/-- Claim C2: extract_years_experience returns
min(max(explicit_years, date_range_years), 50), where explicit_years is the
explicitly captured number (0 if the phrase is absent) and date_range_years
comes from the merged date ranges; an explicit mention of 10 years together
with a 3-year date range yields 10 (maximum, not sum), and the result never
exceeds 50 (a computed total above 50, such as an explicit 60, clamps to 50). -/
theorem claim_C2_extract_years_max_then_clamp :
    (∀ (em : Option Nat) (ranges : List (Int × Int)) (y : Int),
      extract_years_experience em ranges y =
        min (max ((em.getD 0 : Nat) : Int)
          (calculate_experience_from_dates ranges y)) 50) ∧
    extract_years_experience (some 10) [(2020, 2023)] 2026 = 10 ∧
    calculate_experience_from_dates [(2020, 2023)] 2026 = 3 ∧
    (∀ (em : Option Nat) (ranges : List (Int × Int)) (y : Int),
      extract_years_experience em ranges y ≤ 50) ∧
    extract_years_experience (some 60) [] 2026 = 50 := by
  refine ⟨fun em ranges y => rfl, by decide, by decide, ?_, by decide⟩
  intro em ranges y
  exact min_le_right _ _

/-! String model: Python lowercasing and substring containment -/

/-- Substring check on character lists, mirroring the Python `in` operator
on strings: true when the pattern occurs as a contiguous infix. -/
def listContainsSub (pat : List Char) : List Char → Bool
  | [] => pat.isEmpty
  | c :: rest => pat.isPrefixOf (c :: rest) || listContainsSub pat rest

/-- Python str.lower(), modelled as charwise lowercasing. -/
def lowerStr (s : String) : String := ⟨s.data.map Char.toLower⟩

/-- Python `pat in hay` on strings. -/
def strContainsSub (hay pat : String) : Bool := listContainsSub pat.data hay.data

theorem listContainsSub_iff_infix (pat l : List Char) :
    listContainsSub pat l = true ↔ pat <:+: l := by
  induction l with
  | nil =>
      simp only [listContainsSub, List.isEmpty_iff, List.infix_nil]
  | cons c rest ih =>
      simp only [listContainsSub, Bool.or_eq_true, List.isPrefixOf_iff_prefix,
        ih, List.infix_cons_iff]

/-! Embedding of src/search_engine.py -/

/-- Candidate record as consumed by the filter and scoring stages: the
attributes read by apply_hard_filters and calculate_soft_score. The boolean
education and university-tier fields of the enriched candidate dict are
collected in `flags`; a missing flag reads as false, like dict.get(d, False).
`rrf_score` is the retrieval similarity stored in line 125. -/
structure Candidate where
  id : String
  name : String
  full_text : String
  rerank_summary : String
  years_experience : Int
  flags : List (String × Bool)
  rrf_score : ℚ
deriving DecidableEq

/-- Python candidate.get(degree, False) on the boolean flags. -/
def getFlag (c : Candidate) (d : String) : Bool := (c.flags.lookup d).getD false

/-- Lowercased concatenation of full text and summary, the search text built
in src/search_engine.py lines 170 and 187. -/
def textBlob (c : Candidate) : String :=
  lowerStr (c.full_text ++ " " ++ c.rerank_summary)

/-- One entry of the required_education dict: the key "any_of" maps to a list
of acceptable flags, any other key is a degree flag with a boolean value. -/
inductive EduEntry where
  | anyOf (flags : List String)
  | direct (degree : String) (required : Bool)
deriving DecidableEq

/-- The hard_criteria dict fields read by apply_hard_filters. -/
structure HardCriteria where
  min_years_experience : Option Int
  max_years_experience : Option Int
  required_education : List EduEntry
  required_keywords : List String
deriving DecidableEq

/-- Experience bounds of src/search_engine.py lines 138-145: fail when a
present minimum exceeds the actual years or a present maximum is exceeded. -/
def passesExperienceCheck (c : Candidate) (hc : HardCriteria) : Bool :=
  (match hc.min_years_experience with
   | none => true
   | some m => !decide (c.years_experience < m)) &&
  (match hc.max_years_experience with
   | none => true
   | some m => !decide (c.years_experience > m))

/-- One required_education entry check (src/search_engine.py lines 153-160). -/
def eduEntryPasses (c : Candidate) : EduEntry → Bool
  | .anyOf fs => fs.any (fun d => getFlag c d)
  | .direct d req => !req || getFlag c d

/-- Education check of src/search_engine.py lines 150-163: skipped on an
empty dict, otherwise every entry must pass. -/
def passesEducationCheck (c : Candidate) (entries : List EduEntry) : Bool :=
  if entries.isEmpty then true else entries.all (eduEntryPasses c)

/-- Keyword check of src/search_engine.py lines 168-172: skipped on an empty
list, otherwise every keyword must appear, case-insensitively, in the
candidate text blob. -/
def passesKeywordCheck (c : Candidate) (kws : List String) : Bool :=
  if kws.isEmpty then true
  else kws.all (fun kw => strContainsSub (textBlob c) (lowerStr kw))

/-- Per-candidate body of the apply_hard_filters loop (src/search_engine.py
lines 135-178), with the same short-circuit structure between categories. -/
def passesHardFilters (hc : HardCriteria) (c : Candidate) : Bool :=
  if !passesExperienceCheck c hc then false
  else if !passesEducationCheck c hc.required_education then false
  else passesKeywordCheck c hc.required_keywords

/-- Embedding of CandidateSearchEngine.apply_hard_filters (src/search_engine.py
lines 128-181). A `none` criteria value models the falsy (absent or empty)
hard_criteria dict of line 129; survivors are appended in iteration order. -/
def apply_hard_filters (candidates : List Candidate) :
    Option HardCriteria → List Candidate
  | none => candidates
  | some hc => candidates.foldl
      (fun acc c => if passesHardFilters hc c then acc ++ [c] else acc) []

/-! Declarative characterization of the hard-filter checks -/

/-- Experience bounds as stated by the spec: not below a present minimum,
not above a present maximum, each bound optional. -/
def ExpWithinBounds (c : Candidate) (hc : HardCriteria) : Prop :=
  (match hc.min_years_experience with
   | none => True
   | some m => m ≤ c.years_experience) ∧
  (match hc.max_years_experience with
   | none => True
   | some m => c.years_experience ≤ m)

/-- Meaning of one required_education entry: an any_of list needs at least
one true flag, a directly required flag must itself be true. -/
def EduEntryProp (c : Candidate) : EduEntry → Prop
  | .anyOf fs => ∃ d ∈ fs, getFlag c d = true
  | .direct d req => req = true → getFlag c d = true

/-- Every required_education entry is satisfied. -/
def EduSatisfied (c : Candidate) (entries : List EduEntry) : Prop :=
  ∀ e ∈ entries, EduEntryProp c e

/-- Every required keyword appears, case-insensitively, as a substring of
the candidate text blob. -/
def KeywordsSatisfied (c : Candidate) (kws : List String) : Prop :=
  ∀ kw ∈ kws, (lowerStr kw).data <:+: (textBlob c).data

theorem passesExperienceCheck_iff (c : Candidate) (hc : HardCriteria) :
    passesExperienceCheck c hc = true ↔ ExpWithinBounds c hc := by
  rcases hc with ⟨mn, mx, edu, kw⟩
  rcases mn with _ | m <;> rcases mx with _ | M <;>
    simp only [passesExperienceCheck, ExpWithinBounds, Bool.and_eq_true,
      Bool.not_eq_true', decide_eq_false_iff_not, Int.not_lt, gt_iff_lt,
      true_and, and_true, iff_self_and, and_iff_left_iff_imp]

theorem eduEntryPasses_iff (c : Candidate) (e : EduEntry) :
    eduEntryPasses c e = true ↔ EduEntryProp c e := by
  cases e with
  | anyOf fs => simp [eduEntryPasses, EduEntryProp, List.any_eq_true]
  | direct d req => cases req <;> simp [eduEntryPasses, EduEntryProp]

theorem passesEducationCheck_iff (c : Candidate) (entries : List EduEntry) :
    passesEducationCheck c entries = true ↔ EduSatisfied c entries := by
  rcases entries with _ | ⟨e, es⟩ <;>
    simp [passesEducationCheck, EduSatisfied, List.all_eq_true, eduEntryPasses_iff]

theorem passesKeywordCheck_iff (c : Candidate) (kws : List String) :
    passesKeywordCheck c kws = true ↔ KeywordsSatisfied c kws := by
  rcases kws with _ | ⟨k, ks⟩ <;>
    simp [passesKeywordCheck, KeywordsSatisfied, List.all_eq_true,
      strContainsSub, listContainsSub_iff_infix]

theorem passesHardFilters_iff (hc : HardCriteria) (c : Candidate) :
    passesHardFilters hc c = true ↔
      ExpWithinBounds c hc ∧ EduSatisfied c hc.required_education ∧
        KeywordsSatisfied c hc.required_keywords := by
  rw [← passesExperienceCheck_iff, ← passesEducationCheck_iff,
    ← passesKeywordCheck_iff]
  unfold passesHardFilters
  cases hexp : passesExperienceCheck c hc <;>
    cases hedu : passesEducationCheck c hc.required_education <;> simp

theorem apply_hard_filters_eq_filter (cands : List Candidate)
    (hc : HardCriteria) :
    apply_hard_filters cands (some hc) = cands.filter (passesHardFilters hc) := by
  suffices h : ∀ acc : List Candidate,
      cands.foldl (fun acc c => if passesHardFilters hc c then acc ++ [c] else acc) acc =
        acc ++ cands.filter (passesHardFilters hc) by
    simpa [apply_hard_filters] using h []
  induction cands with
  | nil => intro acc; simp
  | cons c cs ih =>
      intro acc
      by_cases h : passesHardFilters hc c <;>
        simp [List.filter_cons, h, ih, List.append_assoc]

/-- Claim C4: with absent or empty hard_criteria the candidate list is
returned unchanged; otherwise the survivors are exactly the candidates that
pass the optional experience bounds, the required-education entries, and the
required-keyword substring checks, and they appear in their original order
(the output is the order-preserving filter, a sublist of the input). -/
theorem claim_C4_hard_filter_semantics :
    (∀ cands : List Candidate, apply_hard_filters cands none = cands) ∧
    (∀ (cands : List Candidate) (hc : HardCriteria),
      apply_hard_filters cands (some hc) =
        cands.filter (passesHardFilters hc)) ∧
    (∀ (cands : List Candidate) (hc : HardCriteria),
      (apply_hard_filters cands (some hc)).Sublist cands) ∧
    (∀ (cands : List Candidate) (hc : HardCriteria) (c : Candidate),
      c ∈ apply_hard_filters cands (some hc) ↔
        c ∈ cands ∧ ExpWithinBounds c hc ∧
          EduSatisfied c hc.required_education ∧
          KeywordsSatisfied c hc.required_keywords) := by
  refine ⟨fun cands => rfl, apply_hard_filters_eq_filter, ?_, ?_⟩
  · intro cands hc
    rw [apply_hard_filters_eq_filter]
    exact List.filter_sublist cands
  · intro cands hc c
    rw [apply_hard_filters_eq_filter, List.mem_filter, passesHardFilters_iff]

/-! Soft scorer -/

/-- The soft_criteria dict fields read by calculate_soft_score: the
weight_factors map, the per-factor keyword lists stored in the same dict
under the keys "<factor>_keywords", the global preferred_keywords list, and
the optional preferred_experience threshold, which line 196 defaults to 99
when absent. -/
structure SoftCriteria where
  weight_factors : List (String × ℚ)
  factor_keywords : List (String × List String)
  preferred_keywords : List String
  preferred_experience : Option Int
deriving DecidableEq

/-- Lookup of soft_criteria.get(factor + "_keywords", []) from
src/search_engine.py line 190. -/
def factorKeywordsOf (sc : SoftCriteria) (factor : String) : List String :=
  (sc.factor_keywords.lookup (factor ++ "_keywords")).getD []

/-- Python any(kw.lower() in text_blob for kw in kws). -/
def anyKeywordMatches (kws : List String) (blob : String) : Bool :=
  kws.any (fun kw => strContainsSub blob (lowerStr kw))

/-- Embedding of CandidateSearchEngine.calculate_soft_score
(src/search_engine.py lines 183-199). A `none` value models the Python falsy
(absent or empty) soft_criteria dict of line 184. -/
def calculate_soft_score (c : Candidate) : Option SoftCriteria → ℚ
  | none => 0
  | some sc =>
    let text_blob := textBlob c
    let afterWeights : ℚ := sc.weight_factors.foldl
      (fun acc fw =>
        if anyKeywordMatches (factorKeywordsOf sc fw.1) text_blob then acc + fw.2
        else acc) 0
    let afterPref : ℚ :=
      if anyKeywordMatches sc.preferred_keywords text_blob then afterWeights + 1
      else afterWeights
    if sc.preferred_experience.getD 99 ≤ c.years_experience then afterPref + 2
    else afterPref

/-- Per-factor contribution of the weight loop: the full weight exactly once
when any of the factor keywords matches the text blob, and nothing otherwise. -/
def factorWeightSum (sc : SoftCriteria) (c : Candidate) : ℚ :=
  (sc.weight_factors.map (fun fw =>
    if anyKeywordMatches (factorKeywordsOf sc fw.1) (textBlob c) then fw.2
    else 0)).sum

/-- Flat +1.0 when any global preferred keyword matches (line 193). -/
def prefKeywordBonus (sc : SoftCriteria) (c : Candidate) : ℚ :=
  if anyKeywordMatches sc.preferred_keywords (textBlob c) then 1 else 0

/-- Flat +2.0 when years_experience reaches the preferred_experience
threshold, defaulted to 99 (line 196). -/
def prefExperienceBonus (sc : SoftCriteria) (c : Candidate) : ℚ :=
  if sc.preferred_experience.getD 99 ≤ c.years_experience then 2 else 0

theorem calculate_soft_score_decomp (c : Candidate) (sc : SoftCriteria) :
    calculate_soft_score c (some sc) =
      factorWeightSum sc c + prefKeywordBonus sc c + prefExperienceBonus sc c := by
  have hfold : ∀ (l : List (String × ℚ)) (acc : ℚ),
      l.foldl (fun acc fw =>
        if anyKeywordMatches (factorKeywordsOf sc fw.1) (textBlob c) then acc + fw.2
        else acc) acc =
      acc + (l.map (fun fw =>
        if anyKeywordMatches (factorKeywordsOf sc fw.1) (textBlob c) then fw.2
        else 0)).sum := by
    intro l
    induction l with
    | nil => intro acc; simp
    | cons fw rest ih =>
        intro acc
        by_cases h : anyKeywordMatches (factorKeywordsOf sc fw.1) (textBlob c) <;>
          simp [h, ih, add_assoc]
  simp only [calculate_soft_score]
  rw [hfold]
  unfold factorWeightSum prefKeywordBonus prefExperienceBonus
  by_cases h1 : anyKeywordMatches sc.preferred_keywords (textBlob c) <;>
    by_cases h2 : sc.preferred_experience.getD 99 ≤ c.years_experience <;>
    simp [h1, h2]

/-- Soft criteria with two weighted factors for the worked example of the
soft-scoring claim. -/
def exSoftCriteria : SoftCriteria :=
  ⟨[("a", 3), ("b", 2)], [("a_keywords", ["alpha"]), ("b_keywords", ["beta"])],
    [], none⟩

/-- Candidate whose text matches only the keywords of factor a, once. -/
def exSoftCandidate : Candidate := ⟨"c1", "n", "alpha work", "", 0, [], 0⟩

/-- Same candidate text with a second occurrence of the a-keyword. -/
def exSoftCandidateTwice : Candidate := ⟨"c2", "n", "alpha alpha work", "", 0, [], 0⟩

/-- Candidate with 99 years of experience in the raw dict field, reachable
by the default threshold of line 196. -/
def softBonusCandidate : Candidate := ⟨"cx", "n", "", "", 99, [], 0⟩

/-- Soft criteria with no preferred_experience specified and nothing else. -/
def softBonusCriteria : SoftCriteria := ⟨[], [], [], none⟩

/-- Counterexample to claim C7 as stated: with preferred_experience
unspecified the code compares against the default threshold 99, so a
candidate whose years_experience field is 99 still receives the flat +2.0
bonus instead of the bonus being skipped. -/
theorem claim_C7_counterexample :
    softBonusCriteria.preferred_experience = none ∧
    calculate_soft_score softBonusCandidate (some softBonusCriteria) = 2 ∧
    calculate_soft_score softBonusCandidate (some softBonusCriteria) ≠ 0 := by
  refine ⟨rfl, ?_, ?_⟩ <;>
    norm_num [calculate_soft_score, softBonusCandidate, softBonusCriteria,
      anyKeywordMatches]

/-- Claim C7 (amended): calculate_soft_score is the sum of each matching
factor weight taken exactly once, a flat +1.0 for a global preferred-keyword
match, and a flat +2.0 experience bonus; when preferred_experience is
unspecified the bonus is compared against the default threshold 99, hence
skipped for every candidate whose years_experience is at most 50 (all
enriched candidates); the {a: 3.0, b: 2.0} example with text matching only
factor a scores exactly 3.0, and a second occurrence of the a-keyword does
not change it. -/
theorem claim_C7_soft_score_structure :
    (∀ (c : Candidate) (sc : SoftCriteria),
      calculate_soft_score c (some sc) =
        factorWeightSum sc c + prefKeywordBonus sc c + prefExperienceBonus sc c) ∧
    (∀ (c : Candidate) (sc : SoftCriteria),
      sc.preferred_experience = none → c.years_experience ≤ 50 →
        calculate_soft_score c (some sc) =
          factorWeightSum sc c + prefKeywordBonus sc c) ∧
    calculate_soft_score exSoftCandidate (some exSoftCriteria) = 3 ∧
    calculate_soft_score exSoftCandidateTwice (some exSoftCriteria) = 3 := by
  refine ⟨calculate_soft_score_decomp, ?_, ?_, ?_⟩
  · intro c sc hnone hle
    rw [calculate_soft_score_decomp]
    have hzero : prefExperienceBonus sc c = 0 := by
      unfold prefExperienceBonus
      rw [hnone]
      have : ¬ ((99 : Int) ≤ c.years_experience) := by omega
      simp [this]
    rw [hzero, add_zero]
  · simp +decide [calculate_soft_score, exSoftCriteria, exSoftCandidate,
      factorKeywordsOf]
  · simp +decide [calculate_soft_score, exSoftCriteria, exSoftCandidateTwice,
      factorKeywordsOf]

/-- Witness for claim C7: the skipped-bonus hypotheses discharged at the
concrete example candidate, which has an unspecified preferred_experience
and 0 years of experience. -/
theorem claim_C7_witness :
    calculate_soft_score exSoftCandidate (some exSoftCriteria) =
      factorWeightSum exSoftCriteria exSoftCandidate +
        prefKeywordBonus exSoftCriteria exSoftCandidate :=
  claim_C7_soft_score_structure.2.1 exSoftCandidate exSoftCriteria rfl (by decide)

/-- Soft criteria carrying a negative factor weight. -/
def negWeightCriteria : SoftCriteria := ⟨[("a", -3)], [("a_keywords", ["x"])], [], none⟩

/-- Candidate whose text matches the negatively weighted factor. -/
def negWeightCandidate : Candidate := ⟨"c3", "n", "x", "", 0, [], 0⟩

/-- Counterexample to claim C8 as stated: the code never clamps, so a
negative configured weight with a matching keyword makes
calculate_soft_score return a negative value. -/
theorem claim_C8_counterexample :
    calculate_soft_score negWeightCandidate (some negWeightCriteria) = -3 ∧
    calculate_soft_score negWeightCandidate (some negWeightCriteria) < 0 := by
  constructor <;>
    simp +decide [calculate_soft_score, negWeightCandidate, negWeightCriteria,
      factorKeywordsOf]

/-- Claim C8 (amended): calculate_soft_score returns 0 when soft_criteria is
absent or empty, and returns a value greater than or equal to 0 whenever
every configured factor weight is nonnegative, as is the case in every
shipped job configuration. -/
theorem claim_C8_soft_score_nonneg :
    (∀ c : Candidate, calculate_soft_score c none = 0) ∧
    (∀ (c : Candidate) (sc : SoftCriteria),
      (∀ fw ∈ sc.weight_factors, 0 ≤ fw.2) →
        0 ≤ calculate_soft_score c (some sc)) := by
  refine ⟨fun c => rfl, ?_⟩
  intro c sc hw
  rw [calculate_soft_score_decomp]
  have h1 : 0 ≤ factorWeightSum sc c := by
    apply List.sum_nonneg
    intro x hx
    rcases List.mem_map.mp hx with ⟨fw, hfw, rfl⟩
    by_cases h : anyKeywordMatches (factorKeywordsOf sc fw.1) (textBlob c) <;>
      simp [h]
    exact hw fw hfw
  have h2 : 0 ≤ prefKeywordBonus sc c := by
    unfold prefKeywordBonus
    by_cases h : anyKeywordMatches sc.preferred_keywords (textBlob c) <;> simp [h]
  have h3 : 0 ≤ prefExperienceBonus sc c := by
    unfold prefExperienceBonus
    by_cases h : sc.preferred_experience.getD 99 ≤ c.years_experience <;> simp [h]
  linarith

/-- Witness for claim C8: the nonnegative-weights hypothesis discharged at
the concrete example criteria with weights 3 and 2. -/
theorem claim_C8_witness :
    0 ≤ calculate_soft_score exSoftCandidateTwice (some exSoftCriteria) :=
  claim_C8_soft_score_nonneg.2 exSoftCandidateTwice exSoftCriteria (by
    intro fw hfw
    simp only [exSoftCriteria, List.mem_cons, List.not_mem_nil, or_false] at hfw
    rcases hfw with rfl | rfl <;> norm_num)

/-! Ranking stage of CandidateSearchEngine.search -/

/-- Python min(scores) (src/search_engine.py line 230); junk value 0 on the
empty list, which the search path excludes because line 218 returns early
when no candidates survive the hard filters. -/
def listMin : List ℚ → ℚ
  | [] => 0
  | x :: xs => xs.foldl min x

/-- Python max(scores) (src/search_engine.py line 230); junk value 0 on the
empty list, as for listMin. -/
def listMax : List ℚ → ℚ
  | [] => 0
  | x :: xs => xs.foldl max x

theorem foldl_min_le_init (xs : List ℚ) : ∀ a : ℚ, xs.foldl min a ≤ a := by
  induction xs with
  | nil => intro a; simp
  | cons x xs ih =>
      intro a
      calc (x :: xs).foldl min a = xs.foldl min (min a x) := rfl
        _ ≤ min a x := ih (min a x)
        _ ≤ a := min_le_left a x

theorem foldl_min_le_of_mem (xs : List ℚ) :
    ∀ (a b : ℚ), b ∈ xs → xs.foldl min a ≤ b := by
  induction xs with
  | nil => intro a b hb; cases hb
  | cons x xs ih =>
      intro a b hb
      rcases List.mem_cons.mp hb with rfl | hb
      · calc (b :: xs).foldl min a = xs.foldl min (min a b) := rfl
          _ ≤ min a b := foldl_min_le_init xs (min a b)
          _ ≤ b := min_le_right a b
      · exact ih (min a x) b hb

theorem init_le_foldl_max (xs : List ℚ) : ∀ a : ℚ, a ≤ xs.foldl max a := by
  induction xs with
  | nil => intro a; simp
  | cons x xs ih =>
      intro a
      calc a ≤ max a x := le_max_left a x
        _ ≤ xs.foldl max (max a x) := ih (max a x)
        _ = (x :: xs).foldl max a := rfl

theorem mem_le_foldl_max (xs : List ℚ) :
    ∀ (a b : ℚ), b ∈ xs → b ≤ xs.foldl max a := by
  induction xs with
  | nil => intro a b hb; cases hb
  | cons x xs ih =>
      intro a b hb
      rcases List.mem_cons.mp hb with rfl | hb
      · calc b ≤ max a b := le_max_right a b
          _ ≤ xs.foldl max (max a b) := init_le_foldl_max xs (max a b)
          _ = (b :: xs).foldl max a := rfl
      · exact ih (max a x) b hb

theorem listMin_le_of_mem {l : List ℚ} {s : ℚ} (h : s ∈ l) : listMin l ≤ s := by
  rcases l with _ | ⟨x, xs⟩
  · cases h
  · rcases List.mem_cons.mp h with rfl | h
    · exact foldl_min_le_init xs s
    · exact foldl_min_le_of_mem xs x s h

theorem le_listMax_of_mem {l : List ℚ} {s : ℚ} (h : s ∈ l) : s ≤ listMax l := by
  rcases l with _ | ⟨x, xs⟩
  · cases h
  · rcases List.mem_cons.mp h with rfl | h
    · exact init_le_foldl_max xs s
    · exact mem_le_foldl_max xs x s h

theorem listMin_le_listMax {l : List ℚ} (h : l ≠ []) : listMin l ≤ listMax l := by
  rcases l with _ | ⟨x, xs⟩
  · exact absurd rfl h
  · exact le_trans (listMin_le_of_mem (List.mem_cons_self x xs))
      (le_listMax_of_mem (List.mem_cons_self x xs))

/-- Claim C5: over any nonempty survivor score list, min-max normalization
with the list minimum and maximum sends every member into [0, 1]; whenever
max equals min, in particular for a singleton score list, the assigned value
is exactly 0.5; and normalization is monotone, so a higher final score never
receives a lower normalized score. -/
theorem claim_C5_minmax_normalization :
    (∀ (scores : List ℚ) (s : ℚ), scores ≠ [] → s ∈ scores →
      0 ≤ normalize_score s (listMin scores) (listMax scores) ∧
        normalize_score s (listMin scores) (listMax scores) ≤ 1) ∧
    (∀ s m : ℚ, normalize_score s m m = 1/2) ∧
    (∀ x : ℚ, listMin [x] = x ∧ listMax [x] = x) ∧
    (∀ (scores : List ℚ) (s₁ s₂ : ℚ), scores ≠ [] → s₁ ≤ s₂ →
      normalize_score s₁ (listMin scores) (listMax scores) ≤
        normalize_score s₂ (listMin scores) (listMax scores)) := by
  refine ⟨?_, ?_, fun x => ⟨rfl, rfl⟩, ?_⟩
  · intro scores s hne hmem
    unfold normalize_score
    by_cases heq : listMax scores = listMin scores
    · simp [heq]; norm_num
    · have hlt : listMin scores < listMax scores :=
        lt_of_le_of_ne (listMin_le_listMax hne) (fun h => heq h.symm)
      have hden : (0 : ℚ) < listMax scores - listMin scores := by linarith
      have hnum : (0 : ℚ) ≤ s - listMin scores := by
        have := listMin_le_of_mem hmem; linarith
      constructor
      · simp [heq]
        positivity
      · simp [heq]
        rw [div_le_one hden]
        have := le_listMax_of_mem hmem
        linarith
  · intro s m
    unfold normalize_score
    simp
  · intro scores s₁ s₂ hne hle
    unfold normalize_score
    by_cases heq : listMax scores = listMin scores
    · simp [heq]
    · simp [heq]
      have hlt : listMin scores < listMax scores :=
        lt_of_le_of_ne (listMin_le_listMax hne) (fun h => heq h.symm)
      have hden : (0 : ℚ) < listMax scores - listMin scores := by linarith
      exact div_le_div_of_nonneg_right (by linarith) (le_of_lt hden)

/-- Witness for claim C5: the nonempty-list and membership hypotheses
discharged at the concrete score list [1, 3] with member 1. -/
theorem claim_C5_witness :
    0 ≤ normalize_score 1 (listMin [1, 3]) (listMax [1, 3]) ∧
      normalize_score 1 (listMin [1, 3]) (listMax [1, 3]) ≤ 1 :=
  claim_C5_minmax_normalization.1 [1, 3] 1 (by simp) (by simp)

/-- Blended final score of src/search_engine.py line 226:
initial_score * 0.4 + soft_score * 0.6, with 0.4 and 0.6 the exact decimal
rationals 2/5 and 3/5; initial_score is the stored retrieval similarity. -/
def finalScore (sc : Option SoftCriteria) (c : Candidate) : ℚ :=
  c.rrf_score * (2/5) + calculate_soft_score c sc * (3/5)

/-- Scoring stage of search (src/search_engine.py lines 223-227): each
surviving candidate paired with its final score, in original order. -/
def withFinalScores (sc : Option SoftCriteria) (survivors : List Candidate) :
    List (Candidate × ℚ) :=
  survivors.map (fun c => (c, finalScore sc c))

/-- Normalization stage of search (src/search_engine.py lines 229-232): each
survivor paired with its final and normalized scores, the minimum and
maximum taken over the surviving final scores. -/
def normalizedTriples (sc : Option SoftCriteria) (survivors : List Candidate) :
    List (Candidate × ℚ × ℚ) :=
  let scores := (withFinalScores sc survivors).map Prod.snd
  (withFinalScores sc survivors).map
    (fun p => (p.1, p.2, normalize_score p.2 (listMin scores) (listMax scores)))

/-- Sort key of src/search_engine.py line 233: the normalized score. -/
def normKey (t : Candidate × ℚ × ℚ) : ℚ := t.2.2

/-- Nonstrict descending order on normalized scores. -/
def rankRel (a b : Candidate × ℚ × ℚ) : Prop := normKey b ≤ normKey a

instance instDecRankRel (a b : Candidate × ℚ × ℚ) : Decidable (rankRel a b) := by
  unfold rankRel; infer_instance

instance : IsTotal (Candidate × ℚ × ℚ) rankRel :=
  ⟨fun a b => le_total (normKey b) (normKey a)⟩

instance : IsTrans (Candidate × ℚ × ℚ) rankRel :=
  ⟨fun _ _ _ hab hbc => le_trans hbc hab⟩

/-- Embedding of the stable descending Python sort of line 233
(sort by normalized score with reverse=True): insertion sort under the
nonstrict descending relation, which keeps the original relative order of
candidates with equal keys. -/
def sortByNormDesc (l : List (Candidate × ℚ × ℚ)) : List (Candidate × ℚ × ℚ) :=
  List.insertionSort rankRel l

/-- Ranked survivor list of src/search_engine.py line 233. -/
def rankedTriples (sc : Option SoftCriteria) (survivors : List Candidate) :
    List (Candidate × ℚ × ℚ) :=
  sortByNormDesc (normalizedTriples sc survivors)

/-- Embedding of the tail of CandidateSearchEngine.search
(src/search_engine.py lines 223-241) on a nonempty surviving list: score,
normalize, stable-sort descending, truncate to top_k, project candidate ids. -/
def searchTopIds (sc : Option SoftCriteria) (survivors : List Candidate)
    (top_k : Nat) : List String :=
  ((rankedTriples sc survivors).take top_k).map (fun t => t.1.id)

/-! Sortedness, permutation and stability of the ranking sort -/

theorem sortByNormDesc_sorted (l : List (Candidate × ℚ × ℚ)) :
    List.Pairwise (fun a b => normKey b ≤ normKey a) (sortByNormDesc l) :=
  List.sorted_insertionSort rankRel l

theorem sortByNormDesc_perm (l : List (Candidate × ℚ × ℚ)) :
    (sortByNormDesc l).Perm l :=
  List.perm_insertionSort rankRel l

theorem sortByNormDesc_stable (l : List (Candidate × ℚ × ℚ)) (q : ℚ) :
    (sortByNormDesc l).filter (fun t => decide (normKey t = q)) =
      l.filter (fun t => decide (normKey t = q)) := by
  set f : Candidate × ℚ × ℚ → Bool := fun t => decide (normKey t = q) with hf
  have hkey : ∀ t ∈ l.filter f, normKey t = q := by
    intro t ht
    have := List.of_mem_filter ht
    simpa [hf] using this
  have hpw : (l.filter f).Pairwise rankRel := by
    apply List.pairwise_of_forall_mem_list
    intro a ha b hb
    unfold rankRel
    rw [hkey a ha, hkey b hb]
  have hsub : List.Sublist (l.filter f) l := List.filter_sublist l
  have h1 : List.Sublist (l.filter f) (sortByNormDesc l) :=
    List.sublist_insertionSort hpw hsub
  have h2 : (l.filter f).filter f = l.filter f :=
    List.filter_eq_self.mpr (fun a ha => List.of_mem_filter ha)
  have h3 : List.Sublist (l.filter f) ((sortByNormDesc l).filter f) := by
    have := h1.filter f
    rwa [h2] at this
  have hperm : ((sortByNormDesc l).filter f).Perm (l.filter f) :=
    (sortByNormDesc_perm l).filter f
  exact (h3.eq_of_length hperm.length_eq.symm).symm

/-! Worked ranking example: similarities 0.9, 0.5, 0.2 and soft scores
0, 0, 5 -/

/-- Soft criteria giving soft score 5 to text containing "xyz" and 0
otherwise. -/
def exRankCriteria : SoftCriteria :=
  ⟨[("bonus", 5)], [("bonus_keywords", ["xyz"])], [], none⟩

/-- First retrieved candidate: similarity 0.9 = 9/10, soft score 0. -/
def exRankC1 : Candidate := ⟨"c1", "n1", "aaa", "", 0, [], 9/10⟩

/-- Second retrieved candidate: similarity 0.5 = 1/2, soft score 0. -/
def exRankC2 : Candidate := ⟨"c2", "n2", "bbb", "", 0, [], 1/2⟩

/-- Third retrieved candidate: similarity 0.2 = 1/5, soft score 5. -/
def exRankC3 : Candidate := ⟨"c3", "n3", "xyz", "", 0, [], 1/5⟩

/-- The three example survivors in retrieval order. -/
def exRankSurvivors : List Candidate := [exRankC1, exRankC2, exRankC3]

theorem exRankSoft1 : calculate_soft_score exRankC1 (some exRankCriteria) = 0 := by
  simp +decide [calculate_soft_score, exRankCriteria, exRankC1, factorKeywordsOf]

theorem exRankSoft2 : calculate_soft_score exRankC2 (some exRankCriteria) = 0 := by
  simp +decide [calculate_soft_score, exRankCriteria, exRankC2, factorKeywordsOf]

theorem exRankSoft3 : calculate_soft_score exRankC3 (some exRankCriteria) = 5 := by
  simp +decide [calculate_soft_score, exRankCriteria, exRankC3, factorKeywordsOf]

/-- Final scores of the example: 0.36 = 9/25, 0.2 = 1/5, 3.08 = 77/25. -/
theorem exRankFinals :
    (withFinalScores (some exRankCriteria) exRankSurvivors).map Prod.snd =
      [9/25, 1/5, 77/25] := by
  simp [withFinalScores, exRankSurvivors, finalScore, exRankSoft1, exRankSoft2,
    exRankSoft3]
  norm_num [exRankC1, exRankC2, exRankC3]

/-- Normalized scores of the example in candidate order: the first candidate
gets (0.36 - 0.2) / (3.08 - 0.2) = 1/18, the second 0, the third 1. -/
theorem exRankNorms :
    (normalizedTriples (some exRankCriteria) exRankSurvivors).map normKey =
      [1/18, 0, 1] := by
  simp [normalizedTriples, withFinalScores, exRankSurvivors, finalScore,
    exRankSoft1, exRankSoft2, exRankSoft3, normKey, listMin, listMax]
  norm_num [exRankC1, exRankC2, exRankC3, normalize_score, min_def, max_def]

/-- Ranked identifier order of the example. -/
theorem exRankOrder :
    (rankedTriples (some exRankCriteria) exRankSurvivors).map (fun t => t.1.id) =
      ["c3", "c1", "c2"] := by
  simp [rankedTriples, sortByNormDesc, normalizedTriples, withFinalScores,
    exRankSurvivors, finalScore, exRankSoft1, exRankSoft2, exRankSoft3]
  norm_num [exRankC1, exRankC2, exRankC3, normalize_score, listMin, listMax,
    min_def, max_def, List.insertionSort, List.orderedInsert, rankRel, normKey]

/-- Counterexample to claim C6 as stated: in the worked example the
normalized scores in candidate order (c1, c2, c3) are [1/18, 0, 1], about
[0.056, 0, 1], not [0, 0.056, 1] as the claim positions them: the first
candidate normalizes to 1/18, not 0 (0.056 written exactly as 7/125). -/
theorem claim_C6_counterexample :
    (normalizedTriples (some exRankCriteria) exRankSurvivors).map normKey =
      [1/18, 0, 1] ∧
    ([1/18, 0, 1] : List ℚ) ≠ [0, 7/125, 1] ∧
    (1/18 : ℚ) ≠ 0 := by
  refine ⟨exRankNorms, ?_, by norm_num⟩
  intro h
  rw [List.cons_eq_cons] at h
  exact absurd h.1 (by norm_num)

/-- Claim C6 (amended): each survivor receives
final_score = 0.4 * retrieval_similarity + 0.6 * soft_score; survivors are
sorted by normalized score descending, stably (candidates with equal
normalized scores keep their original relative order) and as a permutation
of the scored list; the top K ids are the first K of the ranked list with no
padding (the output length is min K (number of survivors)); in the worked
example the final scores are [0.36, 0.2, 3.08] = [9/25, 1/5, 77/25], the
normalized scores in candidate order are [1/18, 0, 1] (not [0, 0.056, 1]:
the first two entries of the claimed vector are transposed and 0.056 only
approximates 1/18), the ranked order is [c3, c1, c2], and top_k = 2 returns
[c3, c1]. -/
theorem claim_C6_blend_rank_topk :
    (∀ (sc : Option SoftCriteria) (c : Candidate),
      finalScore sc c = (2/5) * c.rrf_score + (3/5) * calculate_soft_score c sc) ∧
    (∀ (sc : Option SoftCriteria) (survivors : List Candidate),
      List.Pairwise (fun a b => normKey b ≤ normKey a)
        (rankedTriples sc survivors)) ∧
    (∀ (sc : Option SoftCriteria) (survivors : List Candidate) (q : ℚ),
      (rankedTriples sc survivors).filter (fun t => decide (normKey t = q)) =
        (normalizedTriples sc survivors).filter (fun t => decide (normKey t = q))) ∧
    (∀ (sc : Option SoftCriteria) (survivors : List Candidate),
      (rankedTriples sc survivors).Perm (normalizedTriples sc survivors)) ∧
    (∀ (sc : Option SoftCriteria) (survivors : List Candidate) (k : Nat),
      (searchTopIds sc survivors k).length = min k survivors.length) ∧
    searchTopIds (some exRankCriteria) exRankSurvivors 2 = ["c3", "c1"] ∧
    (rankedTriples (some exRankCriteria) exRankSurvivors).map (fun t => t.1.id) =
      ["c3", "c1", "c2"] ∧
    (withFinalScores (some exRankCriteria) exRankSurvivors).map Prod.snd =
      [9/25, 1/5, 77/25] := by
  refine ⟨?_, ?_, ?_, ?_, ?_, ?_, exRankOrder, exRankFinals⟩
  · intro sc c
    unfold finalScore
    ring
  · intro sc survivors
    exact sortByNormDesc_sorted _
  · intro sc survivors q
    exact sortByNormDesc_stable _ q
  · intro sc survivors
    exact sortByNormDesc_perm _
  · intro sc survivors k
    simp [searchTopIds, rankedTriples, sortByNormDesc, List.length_take,
      normalizedTriples, withFinalScores]
  · unfold searchTopIds
    rw [List.map_take, exRankOrder]
    rfl

/-! Embedding of src/filter_logger.py -/

/-- FilterFailure dataclass (src/filter_logger.py lines 8-18). The
heterogeneous expected and actual values are rendered as strings, and
wall-clock timestamps are threaded in as arguments. -/
structure FilterFailure where
  candidate_id : String
  candidate_name : String
  filter_type : String
  filter_name : String
  reason : String
  expected_value : String
  actual_value : String
  timestamp : String
deriving DecidableEq

/-- FilterSession dataclass (src/filter_logger.py lines 21-29). -/
structure FilterSession where
  job_config_name : String
  query : String
  total_candidates : Nat
  candidates_after_filtering : Nat
  filter_failures : List FilterFailure
  timestamp : String
deriving DecidableEq

/-- Mutable state of a FilterLogger instance (src/filter_logger.py lines
35-38), together with the session list last written to its JSON log file by
save_to_file; the metadata wrapper of lines 87-94 is a function of that
list and the write time. -/
structure FilterLogger where
  current_session : Option FilterSession
  all_sessions : List FilterSession
  file_sessions : List FilterSession
deriving DecidableEq

/-- Embedding of FilterLogger.start_session (src/filter_logger.py lines
40-49): the single current-session slot is overwritten with a fresh session
holding an empty failure list, whatever it held before. -/
def start_session (st : FilterLogger) (job_config_name query : String)
    (total_candidates : Nat) (now : String) : FilterLogger :=
  { st with
      current_session := some ⟨job_config_name, query, total_candidates, 0, [], now⟩ }

/-- Embedding of FilterLogger.log_filter_failure (src/filter_logger.py
lines 51-68): a no-op without an open session, otherwise appends one
failure record to the open session. -/
def log_filter_failure (st : FilterLogger) (candidate_id candidate_name
    ftype fname reason expected_value actual_value now : String) :
    FilterLogger :=
  match st.current_session with
  | none => st
  | some s =>
      { st with
          current_session := some { s with
            filter_failures := s.filter_failures ++
              [⟨candidate_id, candidate_name, ftype, fname, reason,
                expected_value, actual_value, now⟩] } }

/-- Embedding of FilterLogger.end_session (src/filter_logger.py lines
70-78): a no-op without an open session; otherwise fixes the survivor
count, appends the closed session to all_sessions, persists the whole
collection to the file, and clears the slot. -/
def end_session (st : FilterLogger) (candidates_after_filtering : Nat) :
    FilterLogger :=
  match st.current_session with
  | none => st
  | some s =>
      let closed := { s with candidates_after_filtering := candidates_after_filtering }
      { current_session := none,
        all_sessions := st.all_sessions ++ [closed],
        file_sessions := st.all_sessions ++ [closed] }

/-- Filtering phase of CandidateSearchEngine.search (src/search_engine.py
lines 214-216): a session is opened, apply_hard_filters runs, and the
session is closed with the survivor count. The body of apply_hard_filters
(lines 128-181) contains no call to FilterLogger.log_filter_failure, so the
logger state is untouched between the two session calls. -/
def searchFilterPhase (st : FilterLogger) (cands : List Candidate)
    (hc : Option HardCriteria) (job_name query now : String) :
    FilterLogger × List Candidate :=
  let st1 := start_session st job_name query cands.length now
  let survivors := apply_hard_filters cands hc
  (end_session st1 survivors.length, survivors)

/-- Candidate with 2 years of experience, failing a minimum of 3. -/
def failingCandidate : Candidate := ⟨"cand1", "Alice", "", "", 2, [], 0⟩

/-- Hard criteria requiring min_years_experience = 3. -/
def minThreeCriteria : HardCriteria := ⟨some 3, none, [], []⟩

/-- Claim C1: the search filtering phase always closes its session with an
empty failure list, whatever the candidates and criteria, because
apply_hard_filters never calls log_filter_failure; in particular a
candidate with 2 years of experience failing the min-3 criterion is
filtered out while zero FilterFailure records (instead of the claimed one
per failing category) are appended to the session. -/
theorem claim_C1_no_failures_ever_logged :
    (∀ (st : FilterLogger) (cands : List Candidate) (hc : Option HardCriteria)
      (j q now : String),
      (searchFilterPhase st cands hc j q now).1.all_sessions =
        st.all_sessions ++
          [⟨j, q, cands.length, (apply_hard_filters cands hc).length, [], now⟩]) ∧
    apply_hard_filters [failingCandidate] (some minThreeCriteria) = [] ∧
    ((searchFilterPhase ⟨none, [], []⟩ [failingCandidate]
        (some minThreeCriteria) "job" "q" "t").1.all_sessions.map
      (fun s => s.filter_failures)) = [[]] := by
  refine ⟨?_, by decide, by decide⟩
  intro st cands hc j q now
  simp [searchFilterPhase, start_session, end_session]

/-! Operation sequences on the filter logger -/

/-- One public FilterLogger call. -/
inductive LoggerOp where
  | start (job_config_name query : String) (total_candidates : Nat) (now : String)
  | logFailure (candidate_id candidate_name ftype fname reason
      expected_value actual_value now : String)
  | endSession (candidates_after_filtering : Nat)
deriving DecidableEq

/-- Effect of one call on the logger state. -/
def runOp (st : FilterLogger) : LoggerOp → FilterLogger
  | .start j q t now => start_session st j q t now
  | .logFailure a b c d e f g now => log_filter_failure st a b c d e f g now
  | .endSession n => end_session st n

/-- Effect of a call sequence on the logger state. -/
def runOps (st : FilterLogger) (ops : List LoggerOp) : FilterLogger :=
  ops.foldl runOp st

/-- Claim C10: start_session with a session already open silently replaces
it: all_sessions and the persisted file are untouched by start_session and
by log_filter_failure (only end_session appends), the slot is overwritten
with a fresh empty-failure session, aggregate statistics ignore the open
slot, and the entire future behavior of the logger after the replacing
start_session is independent of the session that was discarded. -/
theorem claim_C10_start_discards_open_session :
    (∀ (st : FilterLogger) (j q : String) (t : Nat) (now : String),
      (start_session st j q t now).all_sessions = st.all_sessions ∧
      (start_session st j q t now).file_sessions = st.file_sessions ∧
      (start_session st j q t now).current_session = some ⟨j, q, t, 0, [], now⟩) ∧
    (∀ (st : FilterLogger) (a b c d e f g now : String),
      (log_filter_failure st a b c d e f g now).all_sessions =
          st.all_sessions ∧
        (log_filter_failure st a b c d e f g now).file_sessions =
          st.file_sessions) ∧
    (∀ (st : FilterLogger) (replaced : Option FilterSession)
      (j q : String) (t : Nat) (now : String) (ops : List LoggerOp),
      runOps (start_session { st with current_session := replaced } j q t now) ops =
        runOps (start_session st j q t now) ops) := by
  refine ⟨fun st j q t now => ⟨rfl, rfl, rfl⟩, ?_, ?_⟩
  · intro st a b c d e f g now
    unfold log_filter_failure
    cases st.current_session <;> exact ⟨rfl, rfl⟩
  · intro st replaced j q t now ops
    rfl

/-! Aggregate statistics of the filter logger -/

/-- Per-job accumulator entry of get_filter_stats (src/filter_logger.py
lines 124-130). -/
structure JobPerf where
  total_candidates : Nat
  filtered_candidates : Nat
  failure_count : Nat
  filter_rate : ℚ
deriving DecidableEq

/-- Result record of get_filter_stats (src/filter_logger.py lines 143-152);
the two inner dicts keep first-insertion key order and are modelled as
association lists. -/
structure FilterStats where
  total_candidates_processed : Nat
  total_candidates_passed : Nat
  total_filter_failures : Nat
  overall_filter_rate : ℚ
  failure_breakdown : List (String × Nat)
  job_performance : List (String × JobPerf)
deriving DecidableEq

/-- Breakdown key "<filter_type>.<filter_name>" of line 115. -/
def failureKey (f : FilterFailure) : String :=
  f.filter_type ++ "." ++ f.filter_name

/-- Dict-style counter bump of lines 116-118, appending unseen keys at the
end as Python dict insertion does. -/
def bumpCount (l : List (String × Nat)) (k : String) : List (String × Nat) :=
  match l with
  | [] => [(k, 1)]
  | (k0, n) :: rest =>
      if k0 = k then (k0, n + 1) :: rest else (k0, n) :: bumpCount rest k

/-- Failure breakdown of lines 111-118: counts keyed by failureKey over all
failures of all closed sessions, in encounter order. -/
def failureBreakdown (sessions : List FilterSession) : List (String × Nat) :=
  ((sessions.map (fun s => s.filter_failures)).flatten).foldl
    (fun acc f => bumpCount acc (failureKey f)) []

/-- Per-job accumulation step of lines 122-134: the three counters grow by
the session amounts, the rate stays at its initialized value. -/
def bumpJob (l : List (String × JobPerf)) (s : FilterSession) :
    List (String × JobPerf) :=
  match l with
  | [] => [(s.job_config_name,
      ⟨s.total_candidates, s.candidates_after_filtering,
        s.filter_failures.length, 0⟩)]
  | (j, p) :: rest =>
      if j = s.job_config_name then
        (j, ⟨p.total_candidates + s.total_candidates,
          p.filtered_candidates + s.candidates_after_filtering,
          p.failure_count + s.filter_failures.length, p.filter_rate⟩) :: rest
      else (j, p) :: bumpJob rest s

/-- Rate pass of lines 136-141: jobs with a positive candidate total get
rate (total - filtered) / total, the rest keep the initialized value. -/
def applyJobRates (l : List (String × JobPerf)) : List (String × JobPerf) :=
  l.map (fun jp =>
    if 0 < jp.2.total_candidates then
      (jp.1, { jp.2 with filter_rate :=
          ((jp.2.total_candidates : ℚ) - (jp.2.filtered_candidates : ℚ)) /
            (jp.2.total_candidates : ℚ) })
    else jp)

/-- Per-job table of get_filter_stats (lines 120-141). -/
def jobPerformance (sessions : List FilterSession) : List (String × JobPerf) :=
  applyJobRates (sessions.foldl bumpJob [])

/-- Embedding of FilterLogger.get_filter_stats (src/filter_logger.py lines
102-152): the empty dict (none) without closed sessions, else the aggregate
record over all closed sessions; the open slot is never consulted. -/
def get_filter_stats (st : FilterLogger) : Option FilterStats :=
  if st.all_sessions.isEmpty then none
  else
    let total_candidates := (st.all_sessions.map (fun s => s.total_candidates)).sum
    let total_filtered :=
      (st.all_sessions.map (fun s => s.candidates_after_filtering)).sum
    let total_failures :=
      (st.all_sessions.map (fun s => s.filter_failures.length)).sum
    some ⟨total_candidates, total_filtered, total_failures,
      if 0 < total_candidates then
        ((total_candidates : ℚ) - (total_filtered : ℚ)) / (total_candidates : ℚ)
      else 0,
      failureBreakdown st.all_sessions,
      jobPerformance st.all_sessions⟩

/-! Counting characterization of the two aggregate dicts -/

/-- Number of logged failures carrying a given breakdown key. -/
def keyCount (sessions : List FilterSession) (k : String) : Nat :=
  (((sessions.map (fun s => s.filter_failures)).flatten).filter
    (fun f => decide (failureKey f = k))).length

/-- Summed candidate totals over the sessions of one job. -/
def jobTotal (sessions : List FilterSession) (j : String) : Nat :=
  ((sessions.filter (fun s => decide (s.job_config_name = j))).map
    (fun s => s.total_candidates)).sum

/-- Summed survivor counts over the sessions of one job. -/
def jobFiltered (sessions : List FilterSession) (j : String) : Nat :=
  ((sessions.filter (fun s => decide (s.job_config_name = j))).map
    (fun s => s.candidates_after_filtering)).sum

/-- Summed failure counts over the sessions of one job. -/
def jobFailures (sessions : List FilterSession) (j : String) : Nat :=
  ((sessions.filter (fun s => decide (s.job_config_name = j))).map
    (fun s => s.filter_failures.length)).sum

theorem bumpCount_lookup_self (l : List (String × Nat)) (k : String) :
    (bumpCount l k).lookup k = some (((l.lookup k).getD 0) + 1) := by
  induction l with
  | nil => simp [bumpCount]
  | cons p rest ih =>
      rcases p with ⟨k0, n⟩
      by_cases h : k0 = k
      · subst h
        simp [bumpCount, List.lookup_cons]
      · have hb : (k == k0) = false := beq_eq_false_iff_ne.mpr (Ne.symm h)
        simp [bumpCount, h, List.lookup_cons, hb, ih]

theorem bumpCount_lookup_other (l : List (String × Nat)) (k k0 : String)
    (h : k0 ≠ k) : (bumpCount l k).lookup k0 = l.lookup k0 := by
  have hb : (k0 == k) = false := beq_eq_false_iff_ne.mpr h
  induction l with
  | nil => simp [bumpCount, List.lookup_cons, hb]
  | cons p rest ih =>
      rcases p with ⟨k1, n⟩
      by_cases h1 : k1 = k
      · subst h1
        simp [bumpCount, List.lookup_cons, hb]
      · simp [bumpCount, h1, List.lookup_cons, ih]

theorem foldl_bumpCount_lookup (fs : List FilterFailure)
    (init : List (String × Nat)) (k : String) :
    (((fs.foldl (fun acc f => bumpCount acc (failureKey f)) init).lookup k).getD 0) =
      ((init.lookup k).getD 0) +
        (fs.filter (fun f => decide (failureKey f = k))).length := by
  induction fs generalizing init with
  | nil => simp
  | cons f fs ih =>
      rw [List.foldl_cons, ih]
      by_cases h : failureKey f = k
      · subst h
        rw [bumpCount_lookup_self]
        simp [List.filter_cons]
        omega
      · rw [bumpCount_lookup_other init (failureKey f) k (Ne.symm h)]
        simp [List.filter_cons, h]

theorem failureBreakdown_lookup (sessions : List FilterSession) (k : String) :
    ((failureBreakdown sessions).lookup k).getD 0 = keyCount sessions k := by
  unfold failureBreakdown keyCount
  rw [foldl_bumpCount_lookup]
  simp

/-- Counter growth contributed by one session to its job entry. -/
def jobStep (p : JobPerf) (s : FilterSession) : JobPerf :=
  ⟨p.total_candidates + s.total_candidates,
    p.filtered_candidates + s.candidates_after_filtering,
    p.failure_count + s.filter_failures.length, p.filter_rate⟩

theorem bumpJob_lookup_self (l : List (String × JobPerf)) (s : FilterSession) :
    (bumpJob l s).lookup s.job_config_name = some
      (match l.lookup s.job_config_name with
       | some p => jobStep p s
       | none => ⟨s.total_candidates, s.candidates_after_filtering,
           s.filter_failures.length, 0⟩) := by
  induction l with
  | nil => simp [bumpJob]
  | cons e rest ih =>
      rcases e with ⟨j0, p0⟩
      by_cases h : j0 = s.job_config_name
      · subst h
        simp [bumpJob, List.lookup_cons, jobStep]
      · have hb : (s.job_config_name == j0) = false :=
          beq_eq_false_iff_ne.mpr (Ne.symm h)
        simp [bumpJob, h, List.lookup_cons, hb, ih]

theorem bumpJob_lookup_other (l : List (String × JobPerf)) (s : FilterSession)
    (j : String) (h : j ≠ s.job_config_name) :
    (bumpJob l s).lookup j = l.lookup j := by
  have hb : (j == s.job_config_name) = false := beq_eq_false_iff_ne.mpr h
  induction l with
  | nil => simp [bumpJob, hb, h]
  | cons e rest ih =>
      rcases e with ⟨j0, p0⟩
      by_cases h0 : j0 = s.job_config_name
      · subst h0
        simp [bumpJob, List.lookup_cons, hb]
      · simp [bumpJob, h0, List.lookup_cons, ih]

theorem foldl_bumpJob_lookup_some (sessions : List FilterSession)
    (init : List (String × JobPerf)) (j : String) (p : JobPerf)
    (h : init.lookup j = some p) :
    (sessions.foldl bumpJob init).lookup j = some
      ⟨p.total_candidates + jobTotal sessions j,
        p.filtered_candidates + jobFiltered sessions j,
        p.failure_count + jobFailures sessions j, p.filter_rate⟩ := by
  induction sessions generalizing init p with
  | nil => simp [jobTotal, jobFiltered, jobFailures, h]
  | cons s rest ih =>
      rw [List.foldl_cons]
      by_cases hs : s.job_config_name = j
      · subst hs
        have h1 : (bumpJob init s).lookup s.job_config_name =
            some (jobStep p s) := by
          rw [bumpJob_lookup_self, h]
        rw [ih _ _ h1]
        simp [jobStep, jobTotal, jobFiltered, jobFailures,
          List.filter_cons, JobPerf.mk.injEq]
        omega
      · have h1 : (bumpJob init s).lookup j = some p := by
          rw [bumpJob_lookup_other _ _ _ (fun hh => hs hh.symm), h]
        rw [ih _ _ h1]
        simp [jobTotal, jobFiltered, jobFailures, List.filter_cons, hs]

theorem foldl_bumpJob_lookup_none (sessions : List FilterSession)
    (init : List (String × JobPerf)) (j : String)
    (h : init.lookup j = none) :
    (sessions.foldl bumpJob init).lookup j =
      if sessions.any (fun s => decide (s.job_config_name = j)) then
        some ⟨jobTotal sessions j, jobFiltered sessions j,
          jobFailures sessions j, 0⟩
      else none := by
  induction sessions generalizing init with
  | nil => simp [h]
  | cons s rest ih =>
      rw [List.foldl_cons]
      by_cases hs : s.job_config_name = j
      · subst hs
        have h1 : (bumpJob init s).lookup s.job_config_name =
            some ⟨s.total_candidates, s.candidates_after_filtering,
              s.filter_failures.length, 0⟩ := by
          rw [bumpJob_lookup_self, h]
        rw [foldl_bumpJob_lookup_some rest _ _ _ h1]
        simp [jobTotal, jobFiltered, jobFailures, List.filter_cons,
          List.any_cons]
      · have h1 : (bumpJob init s).lookup j = none := by
          rw [bumpJob_lookup_other _ _ _ (fun hh => hs hh.symm), h]
        rw [ih _ h1]
        simp [jobTotal, jobFiltered, jobFailures, List.filter_cons,
          List.any_cons, hs]

theorem applyJobRates_lookup (l : List (String × JobPerf)) (j : String) :
    (applyJobRates l).lookup j = (l.lookup j).map (fun p =>
      if 0 < p.total_candidates then
        { p with filter_rate :=
            ((p.total_candidates : ℚ) - (p.filtered_candidates : ℚ)) /
              (p.total_candidates : ℚ) }
      else p) := by
  induction l with
  | nil => simp [applyJobRates]
  | cons e rest ih =>
      rcases e with ⟨j0, p0⟩
      by_cases h : j = j0
      · subst h
        by_cases hpos : 0 < p0.total_candidates <;>
          simp [applyJobRates, List.lookup_cons, hpos]
      · have hb : (j == j0) = false := beq_eq_false_iff_ne.mpr h
        by_cases hpos : 0 < p0.total_candidates <;>
          simpa [applyJobRates, List.lookup_cons, hb, hpos] using ih

theorem jobPerformance_lookup (sessions : List FilterSession) (j : String) :
    (jobPerformance sessions).lookup j =
      if sessions.any (fun s => decide (s.job_config_name = j)) then
        some ⟨jobTotal sessions j, jobFiltered sessions j,
          jobFailures sessions j,
          if 0 < jobTotal sessions j then
            ((jobTotal sessions j : ℚ) - (jobFiltered sessions j : ℚ)) /
              (jobTotal sessions j : ℚ)
          else 0⟩
      else none := by
  unfold jobPerformance
  rw [applyJobRates_lookup, foldl_bumpJob_lookup_none _ _ _ (by simp)]
  by_cases h : sessions.any (fun s => decide (s.job_config_name = j)) = true <;>
    simp [h]
  by_cases hpos : 0 < jobTotal sessions j <;> simp [hpos]

/-- Closed example session: 100 candidates processed, 40 passed. -/
def exSession1 : FilterSession := ⟨"jobA", "q1", 100, 40, [], "t1"⟩

/-- Closed example session: 50 candidates processed, 30 passed. -/
def exSession2 : FilterSession := ⟨"jobB", "q2", 50, 30, [], "t2"⟩

/-- Logger holding exactly the two closed example sessions. -/
def exStatsLogger : FilterLogger :=
  ⟨none, [exSession1, exSession2], [exSession1, exSession2]⟩

/-- Statistics of the example logger: overall rate (150 - 70)/150 = 8/15,
per-job rates 60/100 = 3/5 and 20/50 = 2/5. -/
def exStats : FilterStats :=
  ⟨150, 70, 0, 8/15, [],
    [("jobA", ⟨100, 40, 0, 3/5⟩), ("jobB", ⟨50, 30, 0, 2/5⟩)]⟩

theorem get_filter_stats_example :
    get_filter_stats exStatsLogger = some exStats := by
  simp +decide [get_filter_stats, exStatsLogger, exSession1, exSession2,
    exStats, failureBreakdown, jobPerformance, bumpJob, applyJobRates,
    FilterStats.mk.injEq, JobPerf.mk.injEq]
  norm_num

/-- Claim C9: get_filter_stats, computed over all closed sessions and
ignoring the open slot, reports the summed candidates processed, passed and
failed, an overall filter rate equal to (processed - passed) / processed
with 0 when processed is 0, a failure breakdown whose entry at key
"<filter_type>.<filter_name>" counts exactly the failures carrying that
key, and per-job totals with a derived filter_rate per job; the two closed
sessions (total 100, passed 40) and (total 50, passed 30) yield overall
filter_rate (150 - 70)/150 = 8/15. -/
theorem claim_C9_filter_stats :
    (∀ st : FilterLogger, st.all_sessions = [] → get_filter_stats st = none) ∧
    (∀ (st : FilterLogger) (c : Option FilterSession),
      get_filter_stats { st with current_session := c } = get_filter_stats st) ∧
    (∀ (st : FilterLogger) (stats : FilterStats),
      get_filter_stats st = some stats →
        stats.total_candidates_processed =
          (st.all_sessions.map (fun s => s.total_candidates)).sum ∧
        stats.total_candidates_passed =
          (st.all_sessions.map (fun s => s.candidates_after_filtering)).sum ∧
        stats.total_filter_failures =
          (st.all_sessions.map (fun s => s.filter_failures.length)).sum ∧
        (stats.total_candidates_processed = 0 →
          stats.overall_filter_rate = 0) ∧
        (0 < stats.total_candidates_processed →
          stats.overall_filter_rate =
            ((stats.total_candidates_processed : ℚ) -
              (stats.total_candidates_passed : ℚ)) /
              (stats.total_candidates_processed : ℚ)) ∧
        (∀ k : String,
          (stats.failure_breakdown.lookup k).getD 0 =
            keyCount st.all_sessions k) ∧
        (∀ (j : String) (perf : JobPerf),
          stats.job_performance.lookup j = some perf →
            perf.total_candidates = jobTotal st.all_sessions j ∧
            perf.filtered_candidates = jobFiltered st.all_sessions j ∧
            perf.failure_count = jobFailures st.all_sessions j ∧
            perf.filter_rate =
              (if 0 < jobTotal st.all_sessions j then
                ((jobTotal st.all_sessions j : ℚ) -
                  (jobFiltered st.all_sessions j : ℚ)) /
                  (jobTotal st.all_sessions j : ℚ)
              else 0))) ∧
    (get_filter_stats exStatsLogger).map
      (fun stats => stats.overall_filter_rate) = some (8/15) := by
  refine ⟨?_, fun st c => rfl, ?_, ?_⟩
  · intro st h
    simp [get_filter_stats, h]
  · intro st stats h
    unfold get_filter_stats at h
    by_cases he : st.all_sessions.isEmpty
    · simp [he] at h
    · simp only [he, if_false, Bool.false_eq_true, Option.some.injEq] at h
      subst h
      refine ⟨rfl, rfl, rfl, ?_, ?_, ?_, ?_⟩
      · intro h0
        simp only at h0
        simp [h0]
      · intro h0
        simp only at h0 ⊢
        rw [if_pos h0]
      · intro k
        exact failureBreakdown_lookup st.all_sessions k
      · intro j perf hj
        simp only at hj
        rw [jobPerformance_lookup] at hj
        by_cases hany :
            st.all_sessions.any (fun s => decide (s.job_config_name = j)) = true
        · rw [if_pos hany] at hj
          obtain rfl : _ = perf := Option.some.inj hj
          exact ⟨rfl, rfl, rfl, rfl⟩
        · rw [if_neg hany] at hj
          cases hj
  · rw [get_filter_stats_example]
    rfl

/-- Witness for claim C9: the get_filter_stats and positivity hypotheses
discharged at the concrete two-session example logger. -/
theorem claim_C9_witness :
    exStats.overall_filter_rate =
      ((exStats.total_candidates_processed : ℚ) -
        (exStats.total_candidates_passed : ℚ)) /
        (exStats.total_candidates_processed : ℚ) :=
  (claim_C9_filter_stats.2.2.1 exStatsLogger exStats
      get_filter_stats_example).2.2.2.2.1 (by decide)

end MercorSearch
